import Mathlib

/-!
Verification of the Portfolio-Website-Backend REST API against its
natural-language specification.

The JavaScript controllers (blogController, projectController,
contactController), the Mongoose models (Blog, Project, Contact) and the
authentication middleware are shallowly embedded as Lean functions.  The
document store is a list of records; `findById`, `findByIdAndUpdate` and
`findByIdAndDelete` become operations on that list; each handler returns
its HTTP response, the resulting store, and the number of store queries it
issued.  JavaScript strings are modelled by `String` / `List Char`, dates
by `Nat`, and `undefined` by `Option`.
-/

namespace Portfolio

/-! ### Character-level string helpers

The controllers use `String.prototype.match`, `startsWith`, `split`,
`toLowerCase`, `trim` and `substring`.  These are modelled as structural
functions on `List Char` so that every definition evaluates by `decide`.
-/

/-- Models `needle` being a prefix of a character list
(`String.prototype.startsWith`). -/
def isPrefixChars : List Char → List Char → Bool
  | [], _ => true
  | _ :: _, [] => false
  | p :: ps, c :: cs => p == c && isPrefixChars ps cs

/-- Models `String.prototype.endsWith` on character lists. -/
def isSuffixChars (suf cs : List Char) : Bool :=
  isPrefixChars suf.reverse cs.reverse

/-- Models `String.prototype.split(sep)` for a one-character separator:
`"a b".split(" ") = ["a","b"]`, `"".split(" ") = [""]`. -/
def splitOnChar (sep : Char) : List Char → List (List Char)
  | [] => [[]]
  | c :: cs =>
    if c == sep then [] :: splitOnChar sep cs
    else
      match splitOnChar sep cs with
      | [] => [[c]]
      | w :: ws => (c :: w) :: ws

/-- Whitespace recognised by `String.prototype.trim` (the common cases). -/
def isJsSpace (c : Char) : Bool :=
  c == ' ' || c == '\t' || c == '\n' || c == '\r'

/-- Models `String.prototype.trim` on character lists. -/
def trimChars (cs : List Char) : List Char :=
  ((cs.dropWhile isJsSpace).reverse.dropWhile isJsSpace).reverse

/-- Models `String.prototype.trim`. -/
def trimStr (s : String) : String := ⟨trimChars s.data⟩

/-- Models `String.prototype.toLowerCase` (ASCII, as used for tags). -/
def lowerStr (s : String) : String := ⟨s.data.map Char.toLower⟩

/-- Models `String.prototype.substring(0, n)`. -/
def strTake (n : Nat) (s : String) : String := ⟨s.data.take n⟩

/-- Models the shared id-validation regex `/^[0-9a-fA-F]{24}$/`. -/
def isHexChar (c : Char) : Bool :=
  c.isDigit || ('a' ≤ c && c ≤ 'f') || ('A' ≤ c && c ≤ 'F')

/-- An identifier is well formed iff it is exactly 24 hexadecimal
characters (`id.match(/^[0-9a-fA-F]{24}$/)`). -/
def isHex24 (s : String) : Bool :=
  s.data.length == 24 && s.data.all isHexChar

/-- JavaScript truthiness of an optional string value (`undefined` and the
empty string are falsy). -/
def strTruthy : Option String → Bool
  | none => false
  | some s => s != ""

/-- Models the JavaScript idiom `value || default` on an optional string. -/
def jsOr (o : Option String) (d : String) : String :=
  if strTruthy o then o.getD "" else d

/-- Models `Math.ceil(a / b)` on non-negative integers, with the division
performed over the rationals exactly as the JavaScript number division. -/
def jsCeilDiv (a b : Nat) : Nat := ⌈(a : ℚ) / (b : ℚ)⌉₊

/-! ### Responses and handler outcomes -/

/-- The response shapes produced by the controllers: 200/201 success
payloads, the 400 invalid-id response, other 400 responses, 400
validation-error responses, 404 and 500. -/
inductive Resp (α : Type) where
  | ok (data : α)
  | created (data : α)
  | invalidId
  | badRequest (message : String)
  | validationError (errors : List String)
  | notFound
  | serverError
  deriving DecidableEq

/-- A handler run: the JSON response, the document store afterwards, and
how many queries the handler issued to the store. -/
structure HandlerOut (α ρ : Type) where
  resp : Resp α
  store : List ρ
  queries : Nat
  deriving DecidableEq

/-! ### Sorting (the `.sort(sortObj)` cursor modifier)

Mongo's sort is modelled by a stable insertion sort with a boolean
comparator; the claims below depend only on which records appear, not on
their order. -/

/-- Insert into a sorted list, keeping earlier elements first on ties. -/
def insertLE {α : Type} (le : α → α → Bool) (x : α) : List α → List α
  | [] => [x]
  | y :: ys => if le x y then x :: y :: ys else y :: insertLE le x ys

/-- Stable insertion sort with a boolean comparator. -/
def sortByLE {α : Type} (le : α → α → Bool) : List α → List α
  | [] => []
  | x :: xs => insertLE le x (sortByLE le xs)

/-- Lexicographic comparison of character lists, modelling the ascending
string sort keys (`{ title: 1 }`, `{ name: 1 }`, `{ email: 1 }`). -/
def charsLE : List Char → List Char → Bool
  | [], _ => true
  | _ :: _, [] => false
  | a :: as, b :: bs => if a == b then charsLE as bs else decide (a.toNat < b.toNat)

/-- Ascending comparison on optional dates; a missing date (Mongo `null`)
sorts before every present date. -/
def optNatLE : Option Nat → Option Nat → Bool
  | none, _ => true
  | some _, none => false
  | some a, some b => decide (a ≤ b)

theorem mem_insertLE {α : Type} (le : α → α → Bool) (x y : α) (l : List α) :
    y ∈ insertLE le x l ↔ y = x ∨ y ∈ l := by
  induction l with
  | nil => simp [insertLE]
  | cons z zs ih =>
    by_cases h : le x z = true
    · simp [insertLE, h]
    · simp only [insertLE, h, Bool.false_eq_true, if_false, List.mem_cons, ih]
      tauto

theorem mem_sortByLE {α : Type} (le : α → α → Bool) (y : α) (l : List α) :
    y ∈ sortByLE le l ↔ y ∈ l := by
  induction l with
  | nil => simp [sortByLE]
  | cons x xs ih => simp [sortByLE, mem_insertLE, ih]

theorem length_insertLE {α : Type} (le : α → α → Bool) (x : α) (l : List α) :
    (insertLE le x l).length = l.length + 1 := by
  induction l with
  | nil => rfl
  | cons z zs ih =>
    by_cases h : le x z = true
    · simp [insertLE, h]
    · simp [insertLE, h, ih]

theorem length_sortByLE {α : Type} (le : α → α → Bool) (l : List α) :
    (sortByLE le l).length = l.length := by
  induction l with
  | nil => rfl
  | cons x xs ih => simp [sortByLE, length_insertLE, ih]

/-! ### The store update primitive

`findByIdAndUpdate(id, f)` updates the matching record in place and (with
`new: true`) returns the updated record.  The generic lemma below relates
the record found after the update to the record found before it, for any
per-record transformation that does not change the id. -/

theorem find?_map_ite {ρ : Type} (p : ρ → Bool) (f : ρ → ρ)
    (hpf : ∀ x, p (f x) = p x) (l : List ρ) :
    (l.map fun x => if p x then f x else x).find? p = (l.find? p).map f := by
  induction l with
  | nil => rfl
  | cons a l ih =>
    cases hp : p a with
    | true => simp [List.find?, hp, hpf]
    | false => simp [List.find?, hp, hpf, ih]

/-! ### Blog data model (`src/models/Blog.js`) -/

/-- A stored blog document.  `version` is Mongo's `__v`; dates are `Nat`;
`publishedAt` is `none` when the document's publication timestamp is
`null`/unset. -/
structure Blog where
  id : String
  version : Nat
  title : String
  content : String
  excerpt : String
  tags : List String
  status : String
  author : String
  readTime : Nat
  views : Nat
  publishedAt : Option Nat
  createdAt : Nat
  updatedAt : Nat
  deriving DecidableEq

/-- The `status` enum of the Blog schema. -/
def blogStatusValues : List String := ["draft", "published", "archived"]

/-- `BlogSchema.pre('save')`: when the status path was modified, the status
is `published` and no publication timestamp is set, stamp `publishedAt`
with the current time. -/
def blogPreSave (now : Nat) (statusModified : Bool) (b : Blog) : Blog :=
  if statusModified && b.status == "published" && b.publishedAt == none then
    { b with publishedAt := some now }
  else b

/-- `getBlog` (blogController): validate the id, then
`findByIdAndUpdate(id, { $inc: { views: 1 } }, { new: true })`, then hide
the record unless its status is `published`. -/
def getBlog (store : List Blog) (id : String) : HandlerOut Blog Blog :=
  if !(isHex24 id) then ⟨.invalidId, store, 0⟩
  else
    let store' := store.map fun b =>
      if b.id == id then { b with views := b.views + 1 } else b
    match store'.find? (fun b => b.id == id) with
    | none => ⟨.notFound, store', 1⟩
    | some b =>
      if b.status != "published" then ⟨.notFound, store', 1⟩
      else ⟨.ok b, store', 1⟩

/-- Normalisation of a tag by the blog controller:
`tag.toLowerCase().trim()`. -/
def normalizeTag (t : String) : String := trimStr (lowerStr t)

/-- The fields a caller may put in the body of a blog update request.
`none` models an absent (`undefined`) field.  `idField`, `versionField` and
`createdAtField` stand for `_id`, `__v` and `createdAt`. -/
structure BlogUpdate where
  idField : Option String := none
  versionField : Option Nat := none
  createdAtField : Option Nat := none
  views : Option Nat := none
  title : Option String := none
  content : Option String := none
  excerpt : Option String := none
  tags : Option (List String) := none
  status : Option String := none
  author : Option String := none
  publishedAt : Option Nat := none
  deriving DecidableEq

/-- The `delete updateData._id / __v / createdAt / views` lines of
`updateBlog`. -/
def sanitizeBlogUpdate (u : BlogUpdate) : BlogUpdate :=
  { u with idField := none, versionField := none, createdAtField := none,
           views := none }

/-- The `if (updateData.tags) updateData.tags = updateData.tags.map(...)`
step of `updateBlog`. -/
def processBlogUpdateTags (u : BlogUpdate) : BlogUpdate :=
  match u.tags with
  | none => u
  | some ts => { u with tags := some (ts.map normalizeTag) }

/-- The schema validators run by `runValidators: true` on the paths a blog
update touches (required/maxlength on title, minlength on content,
maxlength on excerpt, the status enum). -/
def validateBlogUpdate (u : BlogUpdate) : List String :=
  (match u.title with
   | some t =>
     (if t.data.length = 0 then ["Blog title is required"] else []) ++
     (if 200 < t.data.length then ["Blog title cannot exceed 200 characters"] else [])
   | none => []) ++
  (match u.content with
   | some c =>
     if c.data.length < 10 then ["Blog content must be at least 10 characters long"]
     else []
   | none => []) ++
  (match u.excerpt with
   | some e => if 300 < e.data.length then ["Excerpt cannot exceed 300 characters"] else []
   | none => []) ++
  (match u.status with
   | some s =>
     if blogStatusValues.contains s then []
     else ["Status must be either draft, published, or archived"]
   | none => [])

/-- Application of a (sanitized) update document to a stored blog by
`findByIdAndUpdate`: every supplied field overwrites the stored one, and
the `timestamps: true` option refreshes `updatedAt`.  No save hook runs on
this path. -/
def applyBlogUpdate (u : BlogUpdate) (now : Nat) (b : Blog) : Blog :=
  { id := u.idField.getD b.id
    version := u.versionField.getD b.version
    createdAt := u.createdAtField.getD b.createdAt
    views := u.views.getD b.views
    title := u.title.getD b.title
    content := u.content.getD b.content
    excerpt := u.excerpt.getD b.excerpt
    tags := u.tags.getD b.tags
    status := u.status.getD b.status
    author := u.author.getD b.author
    readTime := b.readTime
    publishedAt := match u.publishedAt with
      | some d => some d
      | none => b.publishedAt
    updatedAt := now }

/-- `updateBlog` (blogController): strips protected fields, normalises
tags, then calls `findByIdAndUpdate(id, updateData, { new: true,
runValidators: true })`.  There is no id-format check: a malformed id makes
the store call reject with a CastError, which the generic catch block maps
to the 500 response. -/
def updateBlog (store : List Blog) (id : String) (updateData : BlogUpdate)
    (now : Nat) : HandlerOut Blog Blog :=
  let u := processBlogUpdateTags (sanitizeBlogUpdate updateData)
  if !(isHex24 id) then ⟨.serverError, store, 1⟩
  else if (validateBlogUpdate u).isEmpty then
    let store' := store.map fun b => if b.id == id then applyBlogUpdate u now b else b
    match store'.find? (fun b => b.id == id) with
    | none => ⟨.notFound, store', 1⟩
    | some b => ⟨.ok b, store', 1⟩
  else ⟨.validationError (validateBlogUpdate u), store, 1⟩

/-- `deleteBlog` (blogController): validates the id, then
`findByIdAndDelete(id)`; responds with the deleted record's summary. -/
def deleteBlog (store : List Blog) (id : String) : HandlerOut Blog Blog :=
  if !(isHex24 id) then ⟨.invalidId, store, 0⟩
  else
    match store.find? (fun b => b.id == id) with
    | none => ⟨.notFound, store, 1⟩
    | some b => ⟨.ok b, store.eraseP (fun x => x.id == id), 1⟩

/-- A fresh blog document as built by `addBlog` plus the schema defaults:
trimmed title/content, derived excerpt (`content.substring(0,150) + '...'`
when absent), normalised tags, author default, read time
`Math.ceil(words / 200)`, zero views, and `publishedAt` set at creation
exactly when the status is `published`. -/
def mkNewBlog (title content : String) (excerpt : Option String)
    (tags : Option (List String)) (statusVal : String)
    (newId : String) (now : Nat) : Blog :=
  let titleT := trimStr title
  let contentT := trimStr content
  { id := newId
    version := 0
    title := titleT
    content := contentT
    excerpt := match excerpt with
      | some e => trimStr e
      | none => strTake 150 contentT ++ "..."
    tags := (tags.getD []).map normalizeTag
    status := statusVal
    author := "gitanaskhan26"
    readTime := jsCeilDiv (splitOnChar ' ' contentT.data).length 200
    views := 0
    publishedAt := if statusVal == "published" then some now else none
    createdAt := now
    updatedAt := now }

/-- The schema validators checked when a new blog is saved. -/
def validateBlogCreate (b : Blog) : List String :=
  (if b.title.data.length = 0 then ["Blog title is required"] else []) ++
  (if 200 < b.title.data.length then ["Blog title cannot exceed 200 characters"] else []) ++
  (if b.content.data.length < 10 then ["Blog content must be at least 10 characters long"] else []) ++
  (if 300 < b.excerpt.data.length then ["Excerpt cannot exceed 300 characters"] else []) ++
  (if blogStatusValues.contains b.status then []
   else ["Status must be either draft, published, or archived"])

/-- `addBlog` (blogController): destructures the body with
`status = 'published'` as the default, rejects a missing title or content,
builds the document and saves it (which runs the pre-save hook and the
schema validators). -/
def addBlog (store : List Blog) (title content : String)
    (excerpt : Option String) (tags : Option (List String))
    (status : Option String) (newId : String) (now : Nat) :
    HandlerOut Blog Blog :=
  if title == "" || content == "" then
    ⟨.badRequest "Title and content are required", store, 0⟩
  else
    let blog := blogPreSave now true
      (mkNewBlog title content excerpt tags (status.getD "published") newId now)
    if (validateBlogCreate blog).isEmpty then
      ⟨.created blog, store ++ [blog], 1⟩
    else ⟨.validationError (validateBlogCreate blog), store, 1⟩

/-! ### Project data model (`src/models/Project.js`) and controller -/

/-- A stored project document. -/
structure Project where
  id : String
  version : Nat
  title : String
  category : String
  image : String
  description : String
  technologies : List String
  projectUrl : String
  githubUrl : String
  createdAt : Nat
  updatedAt : Nat
  deriving DecidableEq

/-- The `category` enum of the Project schema. -/
def projectCategories : List String :=
  ["Web Development", "Mobile Development", "Desktop Application",
   "Data Analysis", "Machine Learning", "UI/UX Design", "Other"]

/-- The project-URL validator `/^https?:\/\/.+/` (empty values pass). -/
def isHttpUrl (s : String) : Bool :=
  (isPrefixChars "http://".data s.data && 7 < s.data.length) ||
  (isPrefixChars "https://".data s.data && 8 < s.data.length)

/-- The GitHub-URL validator `/^https?:\/\/github\.com\/.+/`. -/
def isGithubUrl (s : String) : Bool :=
  (isPrefixChars "http://github.com/".data s.data && 18 < s.data.length) ||
  (isPrefixChars "https://github.com/".data s.data && 19 < s.data.length)

/-- The image extensions accepted by the Project schema. -/
def imageExts : List String := [".jpg", ".jpeg", ".png", ".gif", ".webp"]

/-- The image validator `/^https?:\/\/.+\.(jpg|jpeg|png|gif|webp)$/i`. -/
def isImageUrl (s : String) : Bool :=
  let l := lowerStr s
  imageExts.any fun ext =>
    isSuffixChars ext.data l.data &&
    ((isPrefixChars "http://".data l.data && 7 + ext.data.length < l.data.length) ||
     (isPrefixChars "https://".data l.data && 8 + ext.data.length < l.data.length))

/-- The fields a caller may put in the body of a project update request. -/
structure ProjectUpdate where
  idField : Option String := none
  versionField : Option Nat := none
  createdAtField : Option Nat := none
  title : Option String := none
  category : Option String := none
  image : Option String := none
  description : Option String := none
  technologies : Option (List String) := none
  projectUrl : Option String := none
  githubUrl : Option String := none
  deriving DecidableEq

/-- The `delete updateData._id / __v / createdAt` lines of
`updateProject`. -/
def sanitizeProjectUpdate (u : ProjectUpdate) : ProjectUpdate :=
  { u with idField := none, versionField := none, createdAtField := none }

/-- The schema validators run on the paths a project update touches. -/
def validateProjectUpdate (u : ProjectUpdate) : List String :=
  (match u.title with
   | some t =>
     (if t.data.length = 0 then ["Project title is required"] else []) ++
     (if 100 < t.data.length then ["Project title cannot exceed 100 characters"] else [])
   | none => []) ++
  (match u.category with
   | some c => if projectCategories.contains c then [] else ["Invalid project category"]
   | none => []) ++
  (match u.image with
   | some i => if isImageUrl i then [] else ["Please provide a valid image URL"]
   | none => []) ++
  (match u.description with
   | some d => if 500 < d.data.length then ["Description cannot exceed 500 characters"] else []
   | none => []) ++
  (match u.projectUrl with
   | some p => if p == "" || isHttpUrl p then [] else ["Please provide a valid project URL"]
   | none => []) ++
  (match u.githubUrl with
   | some g => if g == "" || isGithubUrl g then [] else ["Please provide a valid GitHub URL"]
   | none => [])

/-- Application of a (sanitized) project update by `findByIdAndUpdate`. -/
def applyProjectUpdate (u : ProjectUpdate) (now : Nat) (p : Project) : Project :=
  { id := u.idField.getD p.id
    version := u.versionField.getD p.version
    createdAt := u.createdAtField.getD p.createdAt
    title := u.title.getD p.title
    category := u.category.getD p.category
    image := u.image.getD p.image
    description := u.description.getD p.description
    technologies := u.technologies.getD p.technologies
    projectUrl := u.projectUrl.getD p.projectUrl
    githubUrl := u.githubUrl.getD p.githubUrl
    updatedAt := now }

/-- `updateProject` (projectController): strips protected fields and calls
`findByIdAndUpdate` directly — like `updateBlog` it performs no id-format
check, so a malformed id surfaces as the 500 response via a CastError. -/
def updateProject (store : List Project) (id : String)
    (updateData : ProjectUpdate) (now : Nat) : HandlerOut Project Project :=
  let u := sanitizeProjectUpdate updateData
  if !(isHex24 id) then ⟨.serverError, store, 1⟩
  else if (validateProjectUpdate u).isEmpty then
    let store' := store.map fun p => if p.id == id then applyProjectUpdate u now p else p
    match store'.find? (fun p => p.id == id) with
    | none => ⟨.notFound, store', 1⟩
    | some p => ⟨.ok p, store', 1⟩
  else ⟨.validationError (validateProjectUpdate u), store, 1⟩

/-- `getProject` (projectController): validates the id, then `findById`. -/
def getProject (store : List Project) (id : String) : HandlerOut Project Project :=
  if !(isHex24 id) then ⟨.invalidId, store, 0⟩
  else
    match store.find? (fun p => p.id == id) with
    | none => ⟨.notFound, store, 1⟩
    | some p => ⟨.ok p, store, 1⟩

/-- `deleteProject` (projectController): validates the id, then
`findByIdAndDelete`. -/
def deleteProject (store : List Project) (id : String) : HandlerOut Project Project :=
  if !(isHex24 id) then ⟨.invalidId, store, 0⟩
  else
    match store.find? (fun p => p.id == id) with
    | none => ⟨.notFound, store, 1⟩
    | some p => ⟨.ok p, store.eraseP (fun x => x.id == id), 1⟩

/-- Pagination object returned by every list endpoint
(`currentPage/totalPages/total.../hasNextPage/hasPrevPage`). -/
structure Pagination where
  currentPage : Nat
  totalPages : Nat
  total : Nat
  hasNextPage : Bool
  hasPrevPage : Bool
  deriving DecidableEq

/-- Sort keys of `getProjects`: `oldest` is creation ascending, `title` is
title ascending, everything else (`newest`, the default) creation
descending. -/
def projectSortLE (sort : String) (a b : Project) : Bool :=
  match sort with
  | "oldest" => decide (a.createdAt ≤ b.createdAt)
  | "title" => charsLE a.title.data b.title.data
  | _ => decide (b.createdAt ≤ a.createdAt)

/-- Response body of `getProjects`. -/
structure ProjectListResult where
  data : List Project
  pagination : Pagination
  deriving DecidableEq

/-- `getProjects` (projectController): equality filter on a truthy
category, sort, `skip = (page-1)*limit`, a page of records, and a
pagination object computed from `countDocuments` on the same filter
(`totalPages = Math.ceil(total / limit)`). -/
def getProjects (store : List Project) (category : Option String)
    (sort : String) (limit page : Nat) : HandlerOut ProjectListResult Project :=
  let filtered := store.filter fun p =>
    !(strTruthy category) || p.category == category.getD ""
  let sorted := sortByLE (projectSortLE sort) filtered
  let skip := (page - 1) * limit
  let totalProjects := filtered.length
  let totalPages := jsCeilDiv totalProjects limit
  ⟨.ok { data := (sorted.drop skip).take limit
         pagination :=
           { currentPage := page
             totalPages := totalPages
             total := totalProjects
             hasNextPage := decide (page < totalPages)
             hasPrevPage := decide (1 < page) } },
   store, 2⟩

/-! ### Contact data model (`src/models/Contact.js`) and controller -/

/-- A stored contact message. -/
structure Contact where
  id : String
  version : Nat
  name : String
  email : String
  phone : Option String
  subject : Option String
  message : String
  status : String
  source : String
  ipAddress : Option String
  userAgent : Option String
  priority : String
  notes : Option String
  respondedAt : Option Nat
  respondedBy : Option String
  createdAt : Nat
  updatedAt : Nat
  deriving DecidableEq

/-- The `status` enum of the Contact schema. -/
def contactStatusValues : List String := ["new", "read", "replied", "archived"]

/-- The `priority` enum of the Contact schema. -/
def contactPriorityValues : List String := ["low", "normal", "high", "urgent"]

/-- `ContactSchema.pre('save')`: when the status path was modified, the
status is `replied` and `respondedAt` is unset, stamp `respondedAt` with
the current time.  This hook runs only on `save()`, never on
`findByIdAndUpdate`. -/
def contactPreSave (now : Nat) (statusModified : Bool) (c : Contact) : Contact :=
  if statusModified && c.status == "replied" && c.respondedAt == none then
    { c with respondedAt := some now }
  else c

/-- The schema validators run on the paths a contact status update touches
(it sets `status`/`priority` only when truthy and `notes` whenever it is
not `undefined`). -/
def validateContactUpdate (status priority notes : Option String) : List String :=
  (if strTruthy status && !(contactStatusValues.contains (status.getD "")) then
     ["Status must be new, read, replied, or archived"] else []) ++
  (if strTruthy priority && !(contactPriorityValues.contains (priority.getD "")) then
     ["Priority is invalid"] else []) ++
  (match notes with
   | some n => if 1000 < n.data.length then ["Notes cannot exceed 1000 characters"] else []
   | none => [])

/-- The update document built by `updateContactStatus` applied to a stored
contact: the supplied fields overwrite, and whenever the supplied status is
`replied` the handler itself stamps `respondedAt = new Date()` and
`respondedBy = req.user?.username || 'admin'` — on every such request, not
only the first. -/
def applyContactStatusUpdate (status priority notes : Option String)
    (now : Nat) (user : Option String) (c : Contact) : Contact :=
  { c with
    status := if strTruthy status then status.getD "" else c.status
    priority := if strTruthy priority then priority.getD "" else c.priority
    notes := if notes.isSome then notes else c.notes
    respondedAt := if status == some "replied" then some now else c.respondedAt
    respondedBy := if status == some "replied" then some (jsOr user "admin")
      else c.respondedBy
    updatedAt := now }

/-- `updateContactStatus` (contactController): validates the id, builds the
update document and calls `findByIdAndUpdate(id, updateData, { new: true,
runValidators: true })`. -/
def updateContactStatus (store : List Contact) (id : String)
    (status priority notes : Option String) (now : Nat) (user : Option String) :
    HandlerOut Contact Contact :=
  if !(isHex24 id) then ⟨.invalidId, store, 0⟩
  else if (validateContactUpdate status priority notes).isEmpty then
    let store' := store.map fun c =>
      if c.id == id then applyContactStatusUpdate status priority notes now user c else c
    match store'.find? (fun c => c.id == id) with
    | none => ⟨.notFound, store', 1⟩
    | some c => ⟨.ok c, store', 1⟩
  else ⟨.validationError (validateContactUpdate status priority notes), store, 1⟩

/-- `getContact` (contactController): validates the id, `findById`, and if
the record's status is `new` calls `markAsRead()` (a second query: a
`save()` that sets status to `read` and runs the save hook) before
returning the full record — including `ipAddress` and `userAgent`. -/
def getContact (store : List Contact) (id : String) (now : Nat) :
    HandlerOut Contact Contact :=
  if !(isHex24 id) then ⟨.invalidId, store, 0⟩
  else
    match store.find? (fun c => c.id == id) with
    | none => ⟨.notFound, store, 1⟩
    | some c =>
      if c.status == "new" then
        let c' := contactPreSave now true { c with status := "read", updatedAt := now }
        ⟨.ok c', store.map (fun x => if x.id == id then c' else x), 2⟩
      else ⟨.ok c, store, 1⟩

/-- `deleteContact` (contactController): validates the id, then
`findByIdAndDelete`. -/
def deleteContact (store : List Contact) (id : String) : HandlerOut Contact Contact :=
  if !(isHex24 id) then ⟨.invalidId, store, 0⟩
  else
    match store.find? (fun c => c.id == id) with
    | none => ⟨.notFound, store, 1⟩
    | some c => ⟨.ok c, store.eraseP (fun x => x.id == id), 1⟩

/-- A contact record as returned by the list endpoint: the
`select('-ipAddress -userAgent')` projection drops exactly the two
sensitive fields. -/
structure ContactListItem where
  id : String
  version : Nat
  name : String
  email : String
  phone : Option String
  subject : Option String
  message : String
  status : String
  source : String
  priority : String
  notes : Option String
  respondedAt : Option Nat
  respondedBy : Option String
  createdAt : Nat
  updatedAt : Nat
  deriving DecidableEq

/-- The projection applied by `getContacts` to each returned record. -/
def toContactListItem (c : Contact) : ContactListItem :=
  { id := c.id, version := c.version, name := c.name, email := c.email,
    phone := c.phone, subject := c.subject, message := c.message,
    status := c.status, source := c.source, priority := c.priority,
    notes := c.notes, respondedAt := c.respondedAt,
    respondedBy := c.respondedBy, createdAt := c.createdAt,
    updatedAt := c.updatedAt }

/-- Sort keys of `getContacts`. -/
def contactSortLE (sort : String) (a b : Contact) : Bool :=
  match sort with
  | "oldest" => decide (a.createdAt ≤ b.createdAt)
  | "name" => charsLE a.name.data b.name.data
  | "email" => charsLE a.email.data b.email.data
  | _ => decide (b.createdAt ≤ a.createdAt)

/-- Response body of `getContacts`. -/
structure ContactListResult where
  data : List ContactListItem
  pagination : Pagination
  unreadCount : Nat
  deriving DecidableEq

/-- `getContacts` (contactController): truthy status/priority equality
filters, sort, paginate, strip `ipAddress`/`userAgent` from each record,
and report the unread (`status == new`) count. -/
def getContacts (store : List Contact) (status priority : Option String)
    (sort : String) (limit page : Nat) : HandlerOut ContactListResult Contact :=
  let filtered := store.filter fun c =>
    (!(strTruthy status) || c.status == status.getD "") &&
    (!(strTruthy priority) || c.priority == priority.getD "")
  let sorted := sortByLE (contactSortLE sort) filtered
  let skip := (page - 1) * limit
  let totalContacts := filtered.length
  let totalPages := jsCeilDiv totalContacts limit
  ⟨.ok { data := ((sorted.drop skip).take limit).map toContactListItem
         pagination :=
           { currentPage := page
             totalPages := totalPages
             total := totalContacts
             hasNextPage := decide (page < totalPages)
             hasPrevPage := decide (1 < page) }
         unreadCount := (store.filter fun c => c.status == "new").length },
   store, 3⟩

/-! ### Blog list endpoint (`getBlogs`) and route protection -/

/-- Naive substring containment on character lists, modelling an unanchored
regular-expression test with the search text taken literally. -/
def containsChars (needle : List Char) : List Char → Bool
  | [] => needle.isEmpty
  | c :: cs => isPrefixChars needle (c :: cs) || containsChars needle cs

/-- The `$or` search filter of `getBlogs`: case-insensitive containment in
title, content, or any tag. -/
def matchesSearch (search : String) (b : Blog) : Bool :=
  let n := (lowerStr search).data
  containsChars n (lowerStr b.title).data ||
  containsChars n (lowerStr b.content).data ||
  b.tags.any fun t => containsChars n (lowerStr t).data

/-- A blog record as returned by the list endpoint: the
`select('-content')` projection drops the full content. -/
structure BlogListItem where
  id : String
  version : Nat
  title : String
  excerpt : String
  tags : List String
  status : String
  author : String
  readTime : Nat
  views : Nat
  publishedAt : Option Nat
  createdAt : Nat
  updatedAt : Nat
  deriving DecidableEq

/-- The projection applied by `getBlogs` to each returned record. -/
def toBlogListItem (b : Blog) : BlogListItem :=
  { id := b.id, version := b.version, title := b.title, excerpt := b.excerpt,
    tags := b.tags, status := b.status, author := b.author,
    readTime := b.readTime, views := b.views, publishedAt := b.publishedAt,
    createdAt := b.createdAt, updatedAt := b.updatedAt }

/-- Sort keys of `getBlogs`: `oldest`/`newest` by `publishedAt`, `title`
ascending, `views` descending. -/
def blogSortLE (sort : String) (a b : Blog) : Bool :=
  match sort with
  | "oldest" => optNatLE a.publishedAt b.publishedAt
  | "title" => charsLE a.title.data b.title.data
  | "views" => decide (b.views ≤ a.views)
  | _ => optNatLE b.publishedAt a.publishedAt

/-- The popular-tags aggregation of `getBlogs`: unwind the tags of
published posts, group with usage counts, sort by count descending, keep
10. -/
def popularTags (store : List Blog) : List (String × Nat) :=
  let allTags := (store.filter fun b => b.status == "published").flatMap (·.tags)
  let grouped := allTags.eraseDups.map fun t => (t, allTags.count t)
  (sortByLE (fun a b : String × Nat => decide (b.2 ≤ a.2)) grouped).take 10

/-- The filter object built by `getBlogs`: status is always filtered, with
`'published'` as the destructuring default when the query omits it; a
truthy tag must be contained (lowercased) in the record's tags; a truthy
search text must match title, content, or a tag. -/
def blogListFilter (status tag search : Option String) (b : Blog) : Bool :=
  b.status == status.getD "published" &&
  (!(strTruthy tag) || b.tags.contains (lowerStr (tag.getD ""))) &&
  (!(strTruthy search) || matchesSearch (search.getD "") b)

/-- Response body of `getBlogs`. -/
structure BlogListResult where
  data : List BlogListItem
  pagination : Pagination
  popularTags : List (String × Nat)
  deriving DecidableEq

/-- `getBlogs` (blogController): filter (status defaulting to
`published`), sort, paginate, drop the content field from each record, and
attach the popular-tags aggregation.  The route mounts it without the auth
middleware. -/
def getBlogs (store : List Blog) (status tag search : Option String)
    (sort : String) (limit page : Nat) : HandlerOut BlogListResult Blog :=
  let filtered := store.filter (blogListFilter status tag search)
  let sorted := sortByLE (blogSortLE sort) filtered
  let skip := (page - 1) * limit
  let totalBlogs := filtered.length
  let totalPages := jsCeilDiv totalBlogs limit
  ⟨.ok { data := ((sorted.drop skip).take limit).map toBlogListItem
         pagination :=
           { currentPage := page
             totalPages := totalPages
             total := totalBlogs
             hasNextPage := decide (page < totalPages)
             hasPrevPage := decide (1 < page) }
         popularTags := popularTags store },
   store, 3⟩

/-- The blog routes of `blogRoutes.js`. -/
inductive BlogRoute where
  | list | stats | getOne | create | update | delete
  deriving DecidableEq

/-- Which blog routes mount the auth middleware: `GET /` and `GET /:id`
are public, everything else is protected. -/
def blogRouteProtected : BlogRoute → Bool
  | .list => false
  | .getOne => false
  | _ => true

/-! ### Authentication middleware (`src/middleware/authMiddleware.js`) -/

/-- Outcome of the authorization gate. -/
inductive AuthResult where
  | accessDenied
  | invalidToken
  | authorized (token : List Char)
  deriving DecidableEq

/-- The characters of the header prefix `"Bearer "`. -/
def bearerChars : List Char := "Bearer ".data

/-- The token-extraction rule of the middleware:
`token.startsWith("Bearer ") ? token.split(" ")[1] : token`. -/
def extractToken (token : List Char) : List Char :=
  if isPrefixChars bearerChars token then (splitOnChar ' ' token).getD 1 []
  else token

/-- The auth middleware: a missing or empty `Authorization` header is
denied; otherwise the extracted token is passed to `jwt.verify` (modelled
by the abstract predicate `verify`), authorizing on success and rejecting
with the invalid-token response on failure. -/
def authMiddleware (verify : List Char → Bool) (header : Option (List Char)) :
    AuthResult :=
  match header with
  | none => .accessDenied
  | some token =>
    if token.isEmpty then .accessDenied
    else if verify (extractToken token) then .authorized (extractToken token)
    else .invalidToken

/-! ### Arithmetic of `Math.ceil(total / limit)` -/

theorem jsCeilDiv_eq (a b : Nat) (hb : 1 ≤ b) :
    jsCeilDiv a b = (a + b - 1) / b := by
  have hb0 : 0 < b := hb
  have hbq : (0 : ℚ) < (b : ℚ) := by exact_mod_cast hb0
  unfold jsCeilDiv
  apply le_antisymm
  · rw [Nat.ceil_le, div_le_iff₀ hbq]
    have h2 : a ≤ ((a + b - 1) / b) * b := by
      have h3 : a + b - 1 < (a + b - 1) / b * b + b := Nat.lt_div_mul_add hb0
      omega
    exact_mod_cast h2
  · rcases Nat.eq_zero_or_pos ((a + b - 1) / b) with hq | hq
    · simp [hq]
    · have hstep : ((a + b - 1) / b - 1) * b < a := by
        have h5 : ((a + b - 1) / b) * b ≤ a + b - 1 := Nat.div_mul_le_self _ _
        have h6 : ((a + b - 1) / b - 1) * b = ((a + b - 1) / b) * b - b :=
          Nat.sub_one_mul _ _
        have ha : 1 ≤ a := by
          by_contra h
          have ha0 : a = 0 := by omega
          subst ha0
          have : (0 + b - 1) / b = 0 := Nat.div_eq_of_lt (by omega)
          omega
        omega
      have hlt : (((a + b - 1) / b - 1 : ℕ) : ℚ) < (a : ℚ) / (b : ℚ) := by
        rw [lt_div_iff₀ hbq]
        exact_mod_cast hstep
      have := (Nat.lt_ceil).mpr hlt
      omega

/-- A sample stored draft post with a well-formed id. -/
def draftBlogSample : Blog :=
  { id := "0123456789abcdef01234567", version := 0, title := "Draft post",
    content := "Some draft content here.", excerpt := "Some draft",
    tags := [], status := "draft", author := "gitanaskhan26", readTime := 1,
    views := 3, publishedAt := none, createdAt := 1, updatedAt := 1 }

/-- C1: for every blog-post id that resolves to a stored record, `getBlog`
increments that record's view counter by exactly 1 as part of the fetch,
regardless of the post's status; the publication-status check happens after
the increment, so when the post is not `published` the caller receives
NotFound while the stored view counter has still advanced by 1. -/
theorem getBlog_increments_views_before_status_check
    (store : List Blog) (id : String) (b : Blog)
    (hid : isHex24 id = true)
    (hfind : store.find? (fun x => x.id == id) = some b) :
    (getBlog store id).store.find? (fun x => x.id == id)
        = some { b with views := b.views + 1 } ∧
    (getBlog store id).resp =
      (if b.status == "published" then Resp.ok { b with views := b.views + 1 }
       else Resp.notFound) := by
  have hmap := find?_map_ite (fun x : Blog => x.id == id)
      (fun x => { x with views := x.views + 1 }) (fun x => rfl) store
  rw [hfind, Option.map_some'] at hmap
  simp only [getBlog, hid, Bool.not_true, Bool.false_eq_true, if_false, hmap]
  constructor
  · simp only [apply_ite HandlerOut.store, ite_self]
    exact hmap
  · simp only [apply_ite HandlerOut.resp]
    cases hsb : b.status == "published" <;> simp [bne, hsb]

/-- Witness for C1: a stored draft post fetched through `getBlog` has its
view counter advanced from 3 to 4 in the store while the response is
NotFound. -/
theorem getBlog_increments_views_witness :
    isHex24 "0123456789abcdef01234567" = true ∧
    [draftBlogSample].find? (fun x => x.id == "0123456789abcdef01234567")
      = some draftBlogSample ∧
    ((getBlog [draftBlogSample] "0123456789abcdef01234567").store.find?
        (fun x => x.id == "0123456789abcdef01234567")
      = some { draftBlogSample with views := draftBlogSample.views + 1 } ∧
     (getBlog [draftBlogSample] "0123456789abcdef01234567").resp =
       (if draftBlogSample.status == "published"
        then Resp.ok { draftBlogSample with views := draftBlogSample.views + 1 }
        else Resp.notFound)) :=
  ⟨by decide, by decide,
    getBlog_increments_views_before_status_check _ _ _ (by decide) (by decide)⟩

/-- A sample stored project with a well-formed id. -/
def projectSample : Project :=
  { id := "aaaaaaaaaaaaaaaaaaaaaaaa", version := 0, title := "Portfolio",
    category := "Web Development", image := "https://example.com/shot.png",
    description := "", technologies := [], projectUrl := "", githubUrl := "",
    createdAt := 2, updatedAt := 2 }

/-- A sample stored contact message that has already been replied to. -/
def repliedContactSample : Contact :=
  { id := "bbbbbbbbbbbbbbbbbbbbbbbb", version := 0, name := "John Doe",
    email := "john@example.com", phone := none, subject := none,
    message := "I am interested in hiring you.", status := "replied",
    source := "website", ipAddress := some "203.0.113.7",
    userAgent := some "Mozilla/5.0", priority := "normal", notes := none,
    respondedAt := some 5, respondedBy := some "admin",
    createdAt := 3, updatedAt := 5 }

/-- C2 counterexample: on the malformed id "not-a-valid-id", `updateBlog`
does not answer InvalidId — it issues the store call (one query) and the
resulting CastError surfaces as the 500 response. -/
theorem updateBlog_malformed_id_queries_store :
    isHex24 "not-a-valid-id" = false ∧
    (updateBlog [] "not-a-valid-id" {} 0).queries = 1 ∧
    (updateBlog [] "not-a-valid-id" {} 0).resp = Resp.serverError ∧
    (updateBlog [] "not-a-valid-id" {} 0).resp ≠ Resp.invalidId ∧
    (updateProject [] "not-a-valid-id" {} 0).queries = 1 ∧
    (updateProject [] "not-a-valid-id" {} 0).resp = Resp.serverError := by decide

/-- C2 amended: on every identifier that is not 24 hex characters, the
get and delete endpoints of projects, blogs and contacts, and the contact
status update, return InvalidId without issuing any query; but
`updateProject` and `updateBlog` perform no id check — they issue the
store call and return the 500 response instead. -/
theorem malformed_id_handling (id : String) (hid : isHex24 id = false)
    (ps : List Project) (bs : List Blog) (cs : List Contact)
    (pu : ProjectUpdate) (bu : BlogUpdate)
    (st pr no : Option String) (now : Nat) (user : Option String) :
    getProject ps id = ⟨Resp.invalidId, ps, 0⟩ ∧
    deleteProject ps id = ⟨Resp.invalidId, ps, 0⟩ ∧
    getBlog bs id = ⟨Resp.invalidId, bs, 0⟩ ∧
    deleteBlog bs id = ⟨Resp.invalidId, bs, 0⟩ ∧
    getContact cs id now = ⟨Resp.invalidId, cs, 0⟩ ∧
    updateContactStatus cs id st pr no now user = ⟨Resp.invalidId, cs, 0⟩ ∧
    deleteContact cs id = ⟨Resp.invalidId, cs, 0⟩ ∧
    updateProject ps id pu now = ⟨Resp.serverError, ps, 1⟩ ∧
    updateBlog bs id bu now = ⟨Resp.serverError, bs, 1⟩ := by
  refine ⟨?_, ?_, ?_, ?_, ?_, ?_, ?_, ?_, ?_⟩ <;>
    simp [getProject, deleteProject, getBlog, deleteBlog, getContact,
      updateContactStatus, deleteContact, updateProject, updateBlog, hid]

/-- Witness for the amended C2 at the concrete malformed id "abc". -/
theorem malformed_id_handling_witness :
    isHex24 "abc" = false ∧
    (getProject ([] : List Project) "abc" = ⟨Resp.invalidId, [], 0⟩ ∧
     deleteProject ([] : List Project) "abc" = ⟨Resp.invalidId, [], 0⟩ ∧
     getBlog ([] : List Blog) "abc" = ⟨Resp.invalidId, [], 0⟩ ∧
     deleteBlog ([] : List Blog) "abc" = ⟨Resp.invalidId, [], 0⟩ ∧
     getContact ([] : List Contact) "abc" 0 = ⟨Resp.invalidId, [], 0⟩ ∧
     updateContactStatus ([] : List Contact) "abc" none none none 0 none =
       ⟨Resp.invalidId, [], 0⟩ ∧
     deleteContact ([] : List Contact) "abc" = ⟨Resp.invalidId, [], 0⟩ ∧
     updateProject ([] : List Project) "abc" {} 0 = ⟨Resp.serverError, [], 1⟩ ∧
     updateBlog ([] : List Blog) "abc" {} 0 = ⟨Resp.serverError, [], 1⟩) :=
  ⟨by decide,
    malformed_id_handling "abc" (by decide) [] [] [] {} {} none none none 0 none⟩

/-- C5: `getProjects` with page `p` and limit `l` returns the page of
records at offset `skip = (p-1)*l` of the sorted filtered collection, and
the pagination object satisfies `totalPages = ceil(totalCount / l)` with
`totalCount` counted under the same filter, `currentPage = p`,
`hasNextPage ↔ p < totalPages`, and `hasPrevPage ↔ p > 1`. -/
theorem getProjects_pagination_correct (store : List Project)
    (category : Option String) (sort : String) (limit page : Nat)
    (hl : 1 ≤ limit) (_hp : 1 ≤ page) :
    ∃ r : ProjectListResult,
      (getProjects store category sort limit page).resp = Resp.ok r ∧
      r.pagination.currentPage = page ∧
      r.pagination.total =
        (store.filter fun p =>
          !(strTruthy category) || p.category == category.getD "").length ∧
      r.pagination.totalPages = (r.pagination.total + limit - 1) / limit ∧
      (r.pagination.hasNextPage = true ↔ page < r.pagination.totalPages) ∧
      (r.pagination.hasPrevPage = true ↔ 1 < page) ∧
      r.data =
        ((sortByLE (projectSortLE sort)
            (store.filter fun p =>
              !(strTruthy category) || p.category == category.getD "")).drop
          ((page - 1) * limit)).take limit := by
  simp only [getProjects]
  refine ⟨_, rfl, rfl, rfl, ?_, ?_, ?_, rfl⟩
  · exact jsCeilDiv_eq _ _ hl
  · simp
  · simp

/-- Witness for C5 at a one-project store with limit 2, page 1. -/
theorem getProjects_pagination_witness :
    (1 : Nat) ≤ 2 ∧ (1 : Nat) ≤ 1 ∧
    (∃ r : ProjectListResult,
      (getProjects [projectSample] none "newest" 2 1).resp = Resp.ok r ∧
      r.pagination.currentPage = 1 ∧
      r.pagination.total =
        ([projectSample].filter fun p =>
          !(strTruthy none) || p.category == (none : Option String).getD "").length ∧
      r.pagination.totalPages = (r.pagination.total + 2 - 1) / 2 ∧
      (r.pagination.hasNextPage = true ↔ 1 < r.pagination.totalPages) ∧
      (r.pagination.hasPrevPage = true ↔ 1 < 1) ∧
      r.data =
        ((sortByLE (projectSortLE "newest")
            ([projectSample].filter fun p =>
              !(strTruthy none) || p.category == (none : Option String).getD "")).drop
          ((1 - 1) * 2)).take 2) :=
  ⟨by decide, by decide,
    getProjects_pagination_correct [projectSample] none "newest" 2 1
      (by decide) (by decide)⟩

/-- C3 counterexample: the contact `repliedContactSample` was stamped
`respondedAt = 5`, `respondedBy = "admin"`; a later update that again
supplies status `replied` (changing nothing else) overwrites both fields
with the new time and caller. -/
theorem updateContactStatus_restamps_counterexample :
    repliedContactSample.status = "replied" ∧
    repliedContactSample.respondedAt = some 5 ∧
    (updateContactStatus [repliedContactSample] repliedContactSample.id
        (some "replied") none none 10 (some "alice")).resp =
      Resp.ok { repliedContactSample with
                  respondedAt := some 10
                  respondedBy := some "alice"
                  updatedAt := 10 } ∧
    (some 10 : Option Nat) ≠ repliedContactSample.respondedAt ∧
    (some "alice" : Option String) ≠ repliedContactSample.respondedBy := by
  decide

/-- C3 amended: every `updateContactStatus` request whose supplied status
is `replied` stamps `respondedAt` with the current time and `respondedBy`
with the caller's identity (or "admin" if absent) — on every such request,
overwriting earlier values, because `findByIdAndUpdate` bypasses the
once-only guard of the save hook; a request that supplies no status leaves
both fields unchanged. -/
theorem updateContactStatus_replied_stamping
    (cs : List Contact) (id : String) (priority notes : Option String)
    (now : Nat) (user : Option String) (c : Contact)
    (hid : isHex24 id = true)
    (hfind : cs.find? (fun x => x.id == id) = some c) :
    (validateContactUpdate (some "replied") priority notes = [] →
      ∃ c', (updateContactStatus cs id (some "replied") priority notes now user).resp
          = Resp.ok c' ∧
        c'.respondedAt = some now ∧ c'.respondedBy = some (jsOr user "admin")) ∧
    (validateContactUpdate none priority notes = [] →
      ∃ c', (updateContactStatus cs id none priority notes now user).resp
          = Resp.ok c' ∧
        c'.respondedAt = c.respondedAt ∧ c'.respondedBy = c.respondedBy) := by
  constructor
  · intro hval
    have hmap := find?_map_ite (fun x : Contact => x.id == id)
        (applyContactStatusUpdate (some "replied") priority notes now user)
        (fun x => rfl) cs
    rw [hfind, Option.map_some'] at hmap
    refine ⟨applyContactStatusUpdate (some "replied") priority notes now user c,
      ?_, ?_, ?_⟩
    · simp only [updateContactStatus, hid, Bool.not_true, Bool.false_eq_true,
        if_false, hval, List.isEmpty_nil, if_true, hmap]
    · simp [applyContactStatusUpdate]
    · simp [applyContactStatusUpdate]
  · intro hval
    have hmap := find?_map_ite (fun x : Contact => x.id == id)
        (applyContactStatusUpdate none priority notes now user)
        (fun x => rfl) cs
    rw [hfind, Option.map_some'] at hmap
    refine ⟨applyContactStatusUpdate none priority notes now user c, ?_, ?_, ?_⟩
    · simp only [updateContactStatus, hid, Bool.not_true, Bool.false_eq_true,
        if_false, hval, List.isEmpty_nil, if_true, hmap]
    · simp [applyContactStatusUpdate, strTruthy]
    · simp [applyContactStatusUpdate, strTruthy]

/-- Witness for the amended C3 at the stored contact
`repliedContactSample`. -/
theorem updateContactStatus_replied_stamping_witness :
    isHex24 repliedContactSample.id = true ∧
    [repliedContactSample].find? (fun x => x.id == repliedContactSample.id)
      = some repliedContactSample ∧
    ((validateContactUpdate (some "replied") none none = [] →
      ∃ c', (updateContactStatus [repliedContactSample] repliedContactSample.id
          (some "replied") none none 10 (some "alice")).resp = Resp.ok c' ∧
        c'.respondedAt = some 10 ∧
        c'.respondedBy = some (jsOr (some "alice") "admin")) ∧
     (validateContactUpdate none none none = [] →
      ∃ c', (updateContactStatus [repliedContactSample] repliedContactSample.id
          none none none 10 (some "alice")).resp = Resp.ok c' ∧
        c'.respondedAt = repliedContactSample.respondedAt ∧
        c'.respondedBy = repliedContactSample.respondedBy)) :=
  ⟨by decide, by decide,
    updateContactStatus_replied_stamping [repliedContactSample]
      repliedContactSample.id none none 10 (some "alice") repliedContactSample
      (by decide) (by decide)⟩

/-- The update document actually applied by `updateBlog` has the protected
fields cleared and the caller-visible fields unchanged. -/
theorem processedBlogUpdate_fields (bu : BlogUpdate) :
    (processBlogUpdateTags (sanitizeBlogUpdate bu)).idField = none ∧
    (processBlogUpdateTags (sanitizeBlogUpdate bu)).versionField = none ∧
    (processBlogUpdateTags (sanitizeBlogUpdate bu)).createdAtField = none ∧
    (processBlogUpdateTags (sanitizeBlogUpdate bu)).views = none ∧
    (processBlogUpdateTags (sanitizeBlogUpdate bu)).title = bu.title ∧
    (processBlogUpdateTags (sanitizeBlogUpdate bu)).content = bu.content ∧
    (processBlogUpdateTags (sanitizeBlogUpdate bu)).status = bu.status ∧
    (processBlogUpdateTags (sanitizeBlogUpdate bu)).publishedAt = bu.publishedAt := by
  cases h : bu.tags <;> simp [processBlogUpdateTags, sanitizeBlogUpdate, h]

/-- A sample stored published post whose publication timestamp was set at
time 7. -/
def publishedBlogSample : Blog :=
  { id := "cccccccccccccccccccccccc", version := 0, title := "Live post",
    content := "A post with plenty of words in it.", excerpt := "A post",
    tags := ["nodejs"], status := "published", author := "gitanaskhan26",
    readTime := 1, views := 10, publishedAt := some 7, createdAt := 7,
    updatedAt := 7 }

/-- C4 counterexample: `updateBlog` flips `draftBlogSample`'s status to
published, yet the stored record still has no publication timestamp —
the save hook that would stamp it does not run on the update path. -/
theorem updateBlog_publish_without_timestamp :
    draftBlogSample.publishedAt = none ∧
    (updateBlog [draftBlogSample] draftBlogSample.id
        { status := some "published" } 99).resp =
      Resp.ok { draftBlogSample with status := "published", updatedAt := 99 } ∧
    ({ draftBlogSample with status := "published", updatedAt := 99 } : Blog).status
      = "published" ∧
    ({ draftBlogSample with status := "published", updatedAt := 99 } : Blog).publishedAt
      = none := by
  decide

/-- C4 amended: `publishedAt` is stamped only on the save path — at save
time a published post with an unset timestamp gets the current time, and a
timestamp that is already set is never overwritten by the hook; the update
endpoint applies no stamping at all, so any update that does not itself
supply a `publishedAt` value leaves the stored timestamp unchanged, even
when it switches the status to `published`. -/
theorem publishedAt_stamped_on_save_only
    (bs : List Blog) (id : String) (bu : BlogUpdate) (now m : Nat) (b : Blog)
    (hid : isHex24 id = true)
    (hfind : bs.find? (fun x => x.id == id) = some b)
    (hval : validateBlogUpdate (processBlogUpdateTags (sanitizeBlogUpdate bu)) = [])
    (hsupp : bu.publishedAt = none) :
    (b.publishedAt = none → b.status = "published" →
      blogPreSave now true b = { b with publishedAt := some now }) ∧
    (∀ t, b.publishedAt = some t → blogPreSave m true b = b) ∧
    (∃ b', (updateBlog bs id bu now).resp = Resp.ok b' ∧
      b'.publishedAt = b.publishedAt) := by
  obtain ⟨hf1, _, _, _, _, _, _, hf8⟩ := processedBlogUpdate_fields bu
  refine ⟨?_, ?_, ?_⟩
  · intro hnone hpub
    simp [blogPreSave, hnone, hpub]
  · intro t ht
    simp [blogPreSave, ht]
  · have hmap := find?_map_ite (fun x : Blog => x.id == id)
        (applyBlogUpdate (processBlogUpdateTags (sanitizeBlogUpdate bu)) now)
        (fun x => by simp [applyBlogUpdate, hf1]) bs
    rw [hfind, Option.map_some'] at hmap
    refine ⟨applyBlogUpdate (processBlogUpdateTags (sanitizeBlogUpdate bu)) now b,
      ?_, ?_⟩
    · simp only [updateBlog, hid, Bool.not_true, Bool.false_eq_true, if_false,
        hval, List.isEmpty_nil, if_true, hmap]
    · simp [applyBlogUpdate, hf8, hsupp]

/-- Witness for the amended C4 at the stored post `publishedBlogSample`
and an update that switches nothing but the title. -/
theorem publishedAt_stamped_on_save_only_witness :
    isHex24 publishedBlogSample.id = true ∧
    [publishedBlogSample].find? (fun x => x.id == publishedBlogSample.id)
      = some publishedBlogSample ∧
    validateBlogUpdate (processBlogUpdateTags (sanitizeBlogUpdate
      { title := some "Renamed post" })) = [] ∧
    ({ title := some "Renamed post" } : BlogUpdate).publishedAt = none ∧
    ((publishedBlogSample.publishedAt = none →
        publishedBlogSample.status = "published" →
        blogPreSave 42 true publishedBlogSample
          = { publishedBlogSample with publishedAt := some 42 }) ∧
     (∀ t, publishedBlogSample.publishedAt = some t →
        blogPreSave 43 true publishedBlogSample = publishedBlogSample) ∧
     (∃ b', (updateBlog [publishedBlogSample] publishedBlogSample.id
          { title := some "Renamed post" } 42).resp = Resp.ok b' ∧
        b'.publishedAt = publishedBlogSample.publishedAt)) :=
  ⟨by decide, by decide, by decide, by decide,
    publishedAt_stamped_on_save_only [publishedBlogSample]
      publishedBlogSample.id { title := some "Renamed post" } 42 43
      publishedBlogSample (by decide) (by decide) (by decide) (by decide)⟩

/-- C7: both update endpoints strip `_id`, `__v` and `createdAt` from the
caller-supplied input before applying it (and `updateBlog` strips `views`
as well), so an update can never change the record's identifier, version,
creation timestamp, or — for blogs — view counter, while the remaining
supplied fields are applied (under the schema validators). -/
theorem update_strips_protected_fields
    (bs : List Blog) (ps : List Project) (id : String)
    (bu : BlogUpdate) (pu : ProjectUpdate) (now : Nat) (b : Blog) (p : Project)
    (hid : isHex24 id = true)
    (hbfind : bs.find? (fun x => x.id == id) = some b)
    (hpfind : ps.find? (fun x => x.id == id) = some p)
    (hbval : validateBlogUpdate (processBlogUpdateTags (sanitizeBlogUpdate bu)) = [])
    (hpval : validateProjectUpdate (sanitizeProjectUpdate pu) = []) :
    (∃ b', (updateBlog bs id bu now).resp = Resp.ok b' ∧
      b'.id = b.id ∧ b'.version = b.version ∧ b'.createdAt = b.createdAt ∧
      b'.views = b.views ∧
      (∀ t, bu.title = some t → b'.title = t) ∧
      (∀ s, bu.content = some s → b'.content = s) ∧
      (∀ s, bu.status = some s → b'.status = s)) ∧
    (∃ p', (updateProject ps id pu now).resp = Resp.ok p' ∧
      p'.id = p.id ∧ p'.version = p.version ∧ p'.createdAt = p.createdAt ∧
      (∀ t, pu.title = some t → p'.title = t) ∧
      (∀ s, pu.category = some s → p'.category = s) ∧
      (∀ s, pu.image = some s → p'.image = s)) := by
  obtain ⟨hf1, hf2, hf3, hf4, hf5, hf6, hf7, _⟩ := processedBlogUpdate_fields bu
  constructor
  · have hmap := find?_map_ite (fun x : Blog => x.id == id)
        (applyBlogUpdate (processBlogUpdateTags (sanitizeBlogUpdate bu)) now)
        (fun x => by simp [applyBlogUpdate, hf1]) bs
    rw [hbfind, Option.map_some'] at hmap
    refine ⟨applyBlogUpdate (processBlogUpdateTags (sanitizeBlogUpdate bu)) now b,
      ?_, ?_, ?_, ?_, ?_, ?_, ?_, ?_⟩
    · simp only [updateBlog, hid, Bool.not_true, Bool.false_eq_true, if_false,
        hbval, List.isEmpty_nil, if_true, hmap]
    · simp [applyBlogUpdate, hf1]
    · simp [applyBlogUpdate, hf2]
    · simp [applyBlogUpdate, hf3]
    · simp [applyBlogUpdate, hf4]
    · intro t ht; simp [applyBlogUpdate, hf5, ht]
    · intro s hs; simp [applyBlogUpdate, hf6, hs]
    · intro s hs; simp [applyBlogUpdate, hf7, hs]
  · have hmap := find?_map_ite (fun x : Project => x.id == id)
        (applyProjectUpdate (sanitizeProjectUpdate pu) now)
        (fun x => by simp [applyProjectUpdate, sanitizeProjectUpdate]) ps
    rw [hpfind, Option.map_some'] at hmap
    refine ⟨applyProjectUpdate (sanitizeProjectUpdate pu) now p,
      ?_, ?_, ?_, ?_, ?_, ?_, ?_⟩
    · simp only [updateProject, hid, Bool.not_true, Bool.false_eq_true, if_false,
        hpval, List.isEmpty_nil, if_true, hmap]
    · simp [applyProjectUpdate, sanitizeProjectUpdate]
    · simp [applyProjectUpdate, sanitizeProjectUpdate]
    · simp [applyProjectUpdate, sanitizeProjectUpdate]
    · intro t ht; simp [applyProjectUpdate, sanitizeProjectUpdate, ht]
    · intro s hs; simp [applyProjectUpdate, sanitizeProjectUpdate, hs]
    · intro s hs; simp [applyProjectUpdate, sanitizeProjectUpdate, hs]

/-- A blog update request that tries to overwrite every protected field. -/
def blogUpdateAttempt : BlogUpdate :=
  { idField := some "ffffffffffffffffffffffff"
    versionField := some 9
    createdAtField := some 0
    views := some 999
    title := some "Hacked title" }

/-- A project update request that tries to overwrite every protected
field. -/
def projectUpdateAttempt : ProjectUpdate :=
  { idField := some "ffffffffffffffffffffffff"
    versionField := some 9
    createdAtField := some 0
    title := some "Renamed" }

/-- A sample stored project sharing the id of `publishedBlogSample`. -/
def projectSampleC : Project := { projectSample with id := "cccccccccccccccccccccccc" }

/-- Witness for C7: updates that try to overwrite `_id`, `__v`,
`createdAt` and (for the blog) `views` while renaming the records. -/
theorem update_strips_protected_fields_witness :
    isHex24 "cccccccccccccccccccccccc" = true ∧
    [publishedBlogSample].find? (fun x => x.id == "cccccccccccccccccccccccc")
      = some publishedBlogSample ∧
    [projectSampleC].find? (fun x => x.id == "cccccccccccccccccccccccc")
      = some projectSampleC ∧
    validateBlogUpdate (processBlogUpdateTags (sanitizeBlogUpdate blogUpdateAttempt))
      = [] ∧
    validateProjectUpdate (sanitizeProjectUpdate projectUpdateAttempt) = [] ∧
    ((∃ b', (updateBlog [publishedBlogSample] "cccccccccccccccccccccccc"
          blogUpdateAttempt 50).resp = Resp.ok b' ∧
        b'.id = publishedBlogSample.id ∧
        b'.version = publishedBlogSample.version ∧
        b'.createdAt = publishedBlogSample.createdAt ∧
        b'.views = publishedBlogSample.views ∧
        (∀ t, blogUpdateAttempt.title = some t → b'.title = t) ∧
        (∀ s, blogUpdateAttempt.content = some s → b'.content = s) ∧
        (∀ s, blogUpdateAttempt.status = some s → b'.status = s)) ∧
     (∃ p', (updateProject [projectSampleC] "cccccccccccccccccccccccc"
          projectUpdateAttempt 50).resp = Resp.ok p' ∧
        p'.id = projectSampleC.id ∧
        p'.version = projectSampleC.version ∧
        p'.createdAt = projectSampleC.createdAt ∧
        (∀ t, projectUpdateAttempt.title = some t → p'.title = t) ∧
        (∀ s, projectUpdateAttempt.category = some s → p'.category = s) ∧
        (∀ s, projectUpdateAttempt.image = some s → p'.image = s))) :=
  ⟨by decide, by decide, by decide, by decide, by decide,
    update_strips_protected_fields [publishedBlogSample] [projectSampleC]
      "cccccccccccccccccccccccc" blogUpdateAttempt projectUpdateAttempt
      50 publishedBlogSample projectSampleC
      (by decide) (by decide) (by decide) (by decide) (by decide)⟩

theorem mem_of_isPrefixChars {ps cs : List Char} (h : isPrefixChars ps cs = true)
    {a : Char} (ha : a ∈ ps) : a ∈ cs := by
  induction ps generalizing cs with
  | nil => simp at ha
  | cons p ps ih =>
    cases cs with
    | nil => simp [isPrefixChars] at h
    | cons c cs =>
      simp only [isPrefixChars, Bool.and_eq_true, beq_iff_eq] at h
      obtain ⟨hpc, hrest⟩ := h
      rcases List.mem_cons.mp ha with h1 | h1
      · subst h1
        exact hpc ▸ List.mem_cons_self _ _
      · exact List.mem_cons_of_mem _ (ih hrest h1)

theorem isPrefixChars_append_self (ps rest : List Char) :
    isPrefixChars ps (ps ++ rest) = true := by
  induction ps with
  | nil => rfl
  | cons p ps ih => simp [isPrefixChars, ih]

theorem splitOnChar_of_not_mem {sep : Char} {cs : List Char} (h : sep ∉ cs) :
    splitOnChar sep cs = [cs] := by
  induction cs with
  | nil => rfl
  | cons c cs ih =>
    have hc : (c == sep) = false :=
      beq_eq_false_iff_ne.mpr fun e => h (e ▸ List.mem_cons_self _ _)
    have hcs : sep ∉ cs := fun hm => h (List.mem_cons_of_mem _ hm)
    simp [splitOnChar, hc, ih hcs]

theorem splitOnChar_append_sep {sep : Char} {xs : List Char} (h : sep ∉ xs)
    (rest : List Char) :
    splitOnChar sep (xs ++ sep :: rest) = xs :: splitOnChar sep rest := by
  induction xs with
  | nil => simp [splitOnChar]
  | cons x xs ih =>
    have hx : (x == sep) = false :=
      beq_eq_false_iff_ne.mpr fun e => h (e ▸ List.mem_cons_self _ _)
    have hxs : sep ∉ xs := fun hm => h (List.mem_cons_of_mem _ hm)
    simp [splitOnChar, hx, ih hxs]

/-- C6 counterexample: under a verifier accepting exactly the token "a",
the raw header form of the token string "Bearer a" authorizes (the
middleware strips its first word), while the Bearer-wrapped form of the
same token is rejected — the two forms do not behave identically for
every token string. -/
theorem authMiddleware_bearer_counterexample :
    authMiddleware (fun tok => tok == "a".data) (some "Bearer a".data)
      = AuthResult.authorized "a".data ∧
    authMiddleware (fun tok => tok == "a".data)
        (some (bearerChars ++ "Bearer a".data))
      = AuthResult.invalidToken := by decide

/-- C6 amended: for every nonempty token that contains no space character
(every well-formed JWT), the gate behaves identically whether the
Authorization header carries the raw token or the Bearer-prefixed form:
both are passed to the same verifier and succeed or fail in exactly the
same cases. -/
theorem authMiddleware_bearer_equivalence (verify : List Char → Bool)
    (t : List Char) (hne : t ≠ []) (hsp : ' ' ∉ t) :
    authMiddleware verify (some t)
      = authMiddleware verify (some (bearerChars ++ t)) := by
  have hbear : isPrefixChars bearerChars t = false := by
    cases hb : isPrefixChars bearerChars t
    · rfl
    · exact absurd (mem_of_isPrefixChars hb (by decide)) hsp
  have hext1 : extractToken t = t := by simp [extractToken, hbear]
  have hshape : bearerChars ++ t = "Bearer".data ++ (' ' :: t) := rfl
  have hsplit : splitOnChar ' ' (bearerChars ++ t) = "Bearer".data :: [t] := by
    rw [hshape, splitOnChar_append_sep (by decide) t, splitOnChar_of_not_mem hsp]
  have hext2 : extractToken (bearerChars ++ t) = t := by
    simp [extractToken, isPrefixChars_append_self, hsplit]
  have h1 : t.isEmpty = false := by
    cases t with
    | nil => exact absurd rfl hne
    | cons a l => rfl
  have h2 : (bearerChars ++ t).isEmpty = false := rfl
  simp [authMiddleware, h1, h2, hext1, hext2]

/-- Witness for the amended C6 at the space-free token "abc". -/
theorem authMiddleware_bearer_equivalence_witness :
    "abc".data ≠ [] ∧ ' ' ∉ "abc".data ∧
    authMiddleware (fun tok => tok == "abc".data) (some "abc".data)
      = authMiddleware (fun tok => tok == "abc".data)
          (some (bearerChars ++ "abc".data)) :=
  ⟨by decide, by decide,
    authMiddleware_bearer_equivalence _ _ (by decide) (by decide)⟩

/-- C8: the public, unauthenticated blog list honors any caller-supplied
status filter — a draft or archived post is returned (content excluded) by
a list request carrying that status value, even though the single-post get
reports NotFound for the same unpublished post; and only the default
(no status supplied) restricts the list to published posts. -/
theorem getBlogs_honors_status_filter
    (store : List Blog) (b : Blog) (s : String) (sort : String) (limit : Nat)
    (hs : s = "draft" ∨ s = "archived")
    (hfind : store.find? (fun x => x.id == b.id) = some b)
    (hstat : b.status = s)
    (hid : isHex24 b.id = true)
    (hfit : (store.filter (blogListFilter (some s) none none)).length ≤ limit) :
    (∃ r, (getBlogs store (some s) none none sort limit 1).resp = Resp.ok r ∧
      toBlogListItem b ∈ r.data) ∧
    (getBlog store b.id).resp = Resp.notFound ∧
    blogRouteProtected BlogRoute.list = false ∧
    (∀ tag search sort' limit' page' r item,
      (getBlogs store none tag search sort' limit' page').resp = Resp.ok r →
      item ∈ r.data → item.status = "published") := by
  refine ⟨?_, ?_, rfl, ?_⟩
  · simp only [getBlogs]
    refine ⟨_, rfl, ?_⟩
    have hb : b ∈ store.filter (blogListFilter (some s) none none) :=
      List.mem_filter.mpr ⟨List.mem_of_find?_eq_some hfind, by
        simp [blogListFilter, strTruthy, hstat]⟩
    have hsorted : b ∈ sortByLE (blogSortLE sort)
        (store.filter (blogListFilter (some s) none none)) :=
      (mem_sortByLE _ _ _).mpr hb
    have hlen : (sortByLE (blogSortLE sort)
        (store.filter (blogListFilter (some s) none none))).length ≤ limit := by
      rw [length_sortByLE]; exact hfit
    have e1 : (1 - 1) * limit = 0 := by simp
    dsimp only
    rw [e1, List.drop_zero, List.take_of_length_le hlen]
    exact List.mem_map_of_mem _ hsorted
  · have hmap := find?_map_ite (fun x : Blog => x.id == b.id)
        (fun x => { x with views := x.views + 1 }) (fun x => rfl) store
    rw [hfind, Option.map_some'] at hmap
    have hnp : (b.status != "published") = true := by
      rcases hs with h | h <;> simp [bne, hstat, h]
    simp only [getBlog, hid, Bool.not_true, Bool.false_eq_true, if_false, hmap]
    simp [hnp]
  · intro tag search sort' limit' page' r item hr hitem
    simp only [getBlogs, Resp.ok.injEq] at hr
    subst hr
    dsimp only at hitem
    obtain ⟨x, hx, hxe⟩ := List.mem_map.mp hitem
    subst hxe
    have hx1 := List.mem_of_mem_take hx
    have hx2 := List.mem_of_mem_drop hx1
    have hx3 := (mem_sortByLE _ _ _).mp hx2
    have hx4 := (List.mem_filter.mp hx3).2
    simp only [blogListFilter, Option.getD_none, Bool.and_eq_true, beq_iff_eq] at hx4
    simpa [toBlogListItem] using hx4.1.1

/-- Witness for C8: a two-post store whose draft post is returned by the
status=draft list request and hidden by the single-post get. -/
theorem getBlogs_honors_status_filter_witness :
    ("draft" = "draft" ∨ "draft" = "archived") ∧
    [draftBlogSample, publishedBlogSample].find?
        (fun x => x.id == draftBlogSample.id) = some draftBlogSample ∧
    draftBlogSample.status = "draft" ∧
    isHex24 draftBlogSample.id = true ∧
    ([draftBlogSample, publishedBlogSample].filter
        (blogListFilter (some "draft") none none)).length ≤ 10 ∧
    ((∃ r, (getBlogs [draftBlogSample, publishedBlogSample] (some "draft")
          none none "newest" 10 1).resp = Resp.ok r ∧
        toBlogListItem draftBlogSample ∈ r.data) ∧
     (getBlog [draftBlogSample, publishedBlogSample] draftBlogSample.id).resp
        = Resp.notFound ∧
     blogRouteProtected BlogRoute.list = false ∧
     (∀ tag search sort' limit' page' r item,
        (getBlogs [draftBlogSample, publishedBlogSample] none tag search
            sort' limit' page').resp = Resp.ok r →
        item ∈ r.data → item.status = "published")) :=
  ⟨Or.inl rfl, by decide, by decide, by decide, by decide,
    getBlogs_honors_status_filter [draftBlogSample, publishedBlogSample]
      draftBlogSample "draft" "newest" 10 (Or.inl rfl) (by decide) (by decide)
      (by decide) (by decide)⟩

/-- C9: the admin single-contact get returns the full stored record —
`ipAddress` and `userAgent` included — while every record returned by the
contact list is the projection that drops exactly those two fields and
keeps all the others. -/
theorem contact_sensitive_fields_visibility
    (store : List Contact) (c : Contact) (now : Nat)
    (status priority : Option String) (sort : String) (limit page : Nat)
    (hid : isHex24 c.id = true)
    (hfind : store.find? (fun x => x.id == c.id) = some c) :
    (∃ c', (getContact store c.id now).resp = Resp.ok c' ∧
      c'.ipAddress = c.ipAddress ∧ c'.userAgent = c.userAgent ∧
      c'.name = c.name ∧ c'.email = c.email ∧ c'.message = c.message) ∧
    (∃ r, (getContacts store status priority sort limit page).resp = Resp.ok r ∧
      ∀ item ∈ r.data, ∃ x, x ∈ store ∧ item = toContactListItem x) ∧
    (∀ x : Contact, (toContactListItem x).name = x.name ∧
      (toContactListItem x).email = x.email ∧
      (toContactListItem x).phone = x.phone ∧
      (toContactListItem x).subject = x.subject ∧
      (toContactListItem x).message = x.message ∧
      (toContactListItem x).status = x.status ∧
      (toContactListItem x).source = x.source ∧
      (toContactListItem x).priority = x.priority ∧
      (toContactListItem x).notes = x.notes ∧
      (toContactListItem x).respondedAt = x.respondedAt ∧
      (toContactListItem x).respondedBy = x.respondedBy ∧
      (toContactListItem x).createdAt = x.createdAt) := by
  refine ⟨?_, ?_, ?_⟩
  · simp only [getContact, hid, Bool.not_true, Bool.false_eq_true, if_false, hfind]
    by_cases hnew : (c.status == "new") = true
    · have hps : contactPreSave now true { c with status := "read", updatedAt := now }
          = { c with status := "read", updatedAt := now } := by
        simp [contactPreSave]
      simp only [hnew, if_true, hps]
      exact ⟨_, rfl, rfl, rfl, rfl, rfl, rfl⟩
    · simp only [Bool.not_eq_true] at hnew
      simp only [hnew, Bool.false_eq_true, if_false]
      exact ⟨c, rfl, rfl, rfl, rfl, rfl, rfl⟩
  · simp only [getContacts]
    refine ⟨_, rfl, ?_⟩
    intro item hitem
    dsimp only at hitem
    obtain ⟨x, hx, hxe⟩ := List.mem_map.mp hitem
    refine ⟨x, ?_, hxe.symm⟩
    exact (List.mem_filter.mp
      ((mem_sortByLE _ _ _).mp (List.mem_of_mem_drop (List.mem_of_mem_take hx)))).1
  · intro x
    exact ⟨rfl, rfl, rfl, rfl, rfl, rfl, rfl, rfl, rfl, rfl, rfl, rfl⟩

/-- Witness for C9 at a one-contact store holding a replied message with
captured ip/user-agent metadata. -/
theorem contact_sensitive_fields_visibility_witness :
    isHex24 repliedContactSample.id = true ∧
    [repliedContactSample].find? (fun x => x.id == repliedContactSample.id)
      = some repliedContactSample ∧
    ((∃ c', (getContact [repliedContactSample] repliedContactSample.id 11).resp
          = Resp.ok c' ∧
        c'.ipAddress = repliedContactSample.ipAddress ∧
        c'.userAgent = repliedContactSample.userAgent ∧
        c'.name = repliedContactSample.name ∧
        c'.email = repliedContactSample.email ∧
        c'.message = repliedContactSample.message) ∧
     (∃ r, (getContacts [repliedContactSample] none none "newest" 20 1).resp
          = Resp.ok r ∧
        ∀ item ∈ r.data, ∃ x, x ∈ [repliedContactSample] ∧
          item = toContactListItem x) ∧
     (∀ x : Contact, (toContactListItem x).name = x.name ∧
        (toContactListItem x).email = x.email ∧
        (toContactListItem x).phone = x.phone ∧
        (toContactListItem x).subject = x.subject ∧
        (toContactListItem x).message = x.message ∧
        (toContactListItem x).status = x.status ∧
        (toContactListItem x).source = x.source ∧
        (toContactListItem x).priority = x.priority ∧
        (toContactListItem x).notes = x.notes ∧
        (toContactListItem x).respondedAt = x.respondedAt ∧
        (toContactListItem x).respondedBy = x.respondedBy ∧
        (toContactListItem x).createdAt = x.createdAt)) :=
  ⟨by decide, by decide,
    contact_sensitive_fields_visibility [repliedContactSample]
      repliedContactSample 11 none none "newest" 20 1 (by decide) (by decide)⟩

/-- Appending strings appends their character data. -/
theorem strData_append (s t : String) : (s ++ t).data = s.data ++ t.data := rfl

/-- C10: a blog creation request that omits the status field creates the
post with status `published` (the destructuring default), and consequently
its publication timestamp is stamped with the creation time. -/
theorem addBlog_defaults_to_published (store : List Blog)
    (title content : String) (excerpt : Option String)
    (tags : Option (List String)) (newId : String) (now : Nat)
    (ht : title ≠ "") (hc : content ≠ "")
    (h1 : 1 ≤ (trimStr title).data.length) (h2 : (trimStr title).data.length ≤ 200)
    (h3 : 10 ≤ (trimStr content).data.length)
    (h4 : ∀ e, excerpt = some e → (trimStr e).data.length ≤ 300) :
    ∃ b, addBlog store title content excerpt tags none newId now
        = ⟨Resp.created b, store ++ [b], 1⟩ ∧
      b.status = "published" ∧ b.publishedAt = some now := by
  have htb : (title == "") = false := beq_eq_false_iff_ne.mpr ht
  have hcb : (content == "") = false := beq_eq_false_iff_ne.mpr hc
  have hpub : (mkNewBlog title content excerpt tags "published" newId now).publishedAt
      = some now := by simp [mkNewBlog]
  have hhook : blogPreSave now true
        (mkNewBlog title content excerpt tags "published" newId now)
      = mkNewBlog title content excerpt tags "published" newId now := by
    simp [blogPreSave, hpub]
  have et : (mkNewBlog title content excerpt tags "published" newId now).title
      = trimStr title := rfl
  have ec : (mkNewBlog title content excerpt tags "published" newId now).content
      = trimStr content := rfl
  have es : (mkNewBlog title content excerpt tags "published" newId now).status
      = "published" := rfl
  have hex : (mkNewBlog title content excerpt tags "published" newId now).excerpt.data.length
      ≤ 300 := by
    cases hx : excerpt with
    | some e => simpa [mkNewBlog, hx] using h4 e hx
    | none =>
      simp only [mkNewBlog, hx, strData_append, strTake, List.length_append,
        List.length_take, List.length_cons, List.length_nil]
      omega
  have hval : validateBlogCreate
      (mkNewBlog title content excerpt tags "published" newId now) = [] := by
    simp only [validateBlogCreate, et, ec, es]
    rw [if_neg (by omega), if_neg (by omega), if_neg (by omega),
      if_neg (by omega), if_pos (by decide)]
    simp
  refine ⟨mkNewBlog title content excerpt tags "published" newId now, ?_, es, hpub⟩
  simp only [addBlog, htb, hcb, Bool.or_self, Bool.false_eq_true, if_false,
    Option.getD_none, hhook, hval, List.isEmpty_nil, if_true]

/-- Witness for C10: creating a post with no status field yields a
published post stamped at the creation time 5. -/
theorem addBlog_defaults_to_published_witness :
    ("Hello" : String) ≠ "" ∧
    ("This is definitely long enough." : String) ≠ "" ∧
    1 ≤ (trimStr "Hello").data.length ∧
    (trimStr "Hello").data.length ≤ 200 ∧
    10 ≤ (trimStr "This is definitely long enough.").data.length ∧
    (∀ e, (none : Option String) = some e → (trimStr e).data.length ≤ 300) ∧
    (∃ b, addBlog [] "Hello" "This is definitely long enough." none none none
          "dddddddddddddddddddddddd" 5
        = ⟨Resp.created b, [] ++ [b], 1⟩ ∧
      b.status = "published" ∧ b.publishedAt = some 5) :=
  by
  refine ⟨by decide, by decide, by decide, by decide, by decide, ?_, ?_⟩
  · intro e h
    cases h
  · exact addBlog_defaults_to_published [] "Hello"
      "This is definitely long enough." none none "dddddddddddddddddddddddd" 5
      (by decide) (by decide) (by decide) (by decide) (by decide)
      (fun e h => nomatch h)

end Portfolio
